import Mathlib

/-!
Shallow embedding of mdBook's HTML renderer
(`src/renderer/html_handlebars/hbs_renderer.rs`) and proofs about it.

External collaborators (theme loader, handlebars engine, markdown
converter, playpen preprocessor, `utils::fs` helpers, the `MDBook`
accessors) are not part of the given source; they appear here as
parameters of a `RenderEnv` or as abstract data, exactly at the
granularity the renderer uses them.  Filesystem effects are embedded as
an explicit trace of `write_file` calls plus fault oracles for each
fallible operation.  Machine strings are Lean `String`s; paths are the
relative-path strings the renderer manipulates (`""` models
`PathBuf::new()`).
-/

set_option autoImplicit false

namespace MdBook

/-- A chapter as used by the renderer: `ch.name` and `ch.path`
(the relative source path; `""` models `PathBuf::new()`). -/
structure Chapter where
  name : String
  path : String
deriving Repr, DecidableEq, Inhabited

/-- `book::bookitem::BookItem`: a numbered chapter with its section label,
an unnumbered affix, or a spacer. -/
inductive BookItem where
  | Chapter (sec : String) (ch : MdBook.Chapter)
  | Affix (ch : MdBook.Chapter)
  | Spacer
deriving Repr, DecidableEq, Inhabited

/-- The `MDBook` accessors the renderer calls: `get_title`,
`get_description`, `get_livereload`, `get_src`, `get_dest`, `iter()`. -/
structure MDBook where
  title : String
  description : String
  livereload : Option String
  src : String
  dest : String
  items : List BookItem
deriving Repr, DecidableEq, Inhabited

/-- A JSON value as stored in the renderer's `serde_json` context map:
either a string, or the list of chapter-summary maps. -/
inductive Val where
  | str (s : String)
  | chaps (l : List (List (String × String)))
deriving Repr, DecidableEq, Inhabited

/-- The template context (`serde_json::Map<String, Json>`), embedded as an
association list with insert-or-replace semantics. -/
abbrev Ctx := List (String × Val)

/-- `BTreeMap::insert`: replace the value at an existing key, otherwise
append the new binding. -/
def insertCtx (k : String) (v : Val) : Ctx → Ctx
  | [] => [(k, v)]
  | (k', v') :: rest =>
      if k' = k then (k, v) :: rest else (k', v') :: insertCtx k v rest

/-- Key lookup in a context. -/
def lookupCtx (k : String) (c : Ctx) : Option Val :=
  (c.find? (fun p => p.1 == k)).map Prod.snd

/-- Data written by one `write_file` call: the bytes of a rendered string,
or raw theme bytes. -/
inductive WData where
  | str (s : String)
  | bytes (b : List Nat)
deriving Repr, DecidableEq, Inhabited

/-- Outcome of opening and reading one file: `File::open` failure,
`read_to_string` failure (I/O or invalid UTF-8), or the decoded text. -/
inductive ReadOutcome where
  | openErr
  | readErr
  | ok (s : String)
deriving Repr, DecidableEq, Inhabited

/-- Modelled from the spec: the theme loader (`theme::Theme::new` and the
`theme::FONT_AWESOME…` constants) is outside the given source.  `index` is
the template bytes after the `String::from_utf8` decode attempt (`none`
models invalid UTF-8); every other field is an opaque byte asset. -/
structure Theme where
  index : Option String
  js : List Nat
  css : List Nat
  favicon : List Nat
  jquery : List Nat
  highlight_css : List Nat
  tomorrow_night_css : List Nat
  highlight_js : List Nat
  fontAwesomeCss : List Nat
  fontAwesomeEot : List Nat
  fontAwesomeSvg : List Nat
  fontAwesomeTtf : List Nat
  fontAwesomeWoff : List Nat
  fontAwesomeWoff2 : List Nat
deriving Repr, DecidableEq, Inhabited

/-- The renderer's environment: the loaded theme, fault oracles for each
fallible filesystem or engine step, and the external pure collaborators
(`handlebars.render`, `helpers::playpen::render_playpen`,
`utils::render_markdown`, `utils::fs::path_to_root`). -/
structure RenderEnv where
  theme : Theme
  registerOk : Bool
  createDirOk : Bool
  srcRead : String → ReadOutcome
  destOpenFail : String → Bool
  destReadFail : String → Bool
  writeFail : String → Bool
  copyOk : Bool
  hbRender : Ctx → Option String
  renderPlaypen : String → String → String
  renderMarkdown : String → String
  pathToRoot : String → String

/-- The render's failure outcomes, one per `try!`/`return Err` site. -/
inductive RErr where
  | templateDecode
  | templateRegister
  | createDir
  | srcOpen (p : String)
  | srcFileRead (p : String)
  | hbRender
  | writeFile (p : String)
  | destOpen (p : String)
  | copy
deriving Repr, DecidableEq, Inhabited

/-- Split a character list at every occurrence of `c` (the pieces do not
contain `c`; `n` separators yield `n + 1` pieces). -/
def splitCharAux (c : Char) : List Char → List Char → List (List Char)
  | [], acc => [acc.reverse]
  | x :: xs, acc =>
    if x == c then acc.reverse :: splitCharAux c xs []
    else splitCharAux c xs (x :: acc)

/-- `String.splitOn` for a single-character separator, implemented by
structural recursion over the character data. -/
def splitChar (c : Char) (s : String) : List String :=
  (splitCharAux c s.data []).map (fun l => String.mk l)

/-- Is the first character list a prefix of the second? -/
def isPrefixOfL : List Char → List Char → Bool
  | [], _ => true
  | _ :: _, [] => false
  | a :: as, b :: bs => a == b && isPrefixOfL as bs

/-- Does `pat` occur as a contiguous sublist? -/
def containsL (pat : List Char) : List Char → Bool
  | [] => isPrefixOfL pat []
  | a :: rest => isPrefixOfL pat (a :: rest) || containsL pat rest

/-- Rust `str::contains` for a literal pattern. -/
def containsSub (s pat : String) : Bool :=
  containsL pat.data s.data

/-- Rust `str::starts_with` for a literal pattern. -/
def strStartsWith (pat s : String) : Bool :=
  isPrefixOfL pat.data s.data

/-- Rust `str::lines`: split on `\n`, drop the empty segment a trailing
newline would produce, strip one trailing `\r` from each line. -/
def rustLines (s : String) : List String :=
  let parts := splitChar '\n' s
  let parts := if parts.getLast? = some "" then parts.dropLast else parts
  parts.map (fun l => if l.data.getLast? = some '\r' then String.mk l.data.dropLast else l)

/-- The index-derivation filter exactly as coded (lines 111–114):
`content.lines().filter(|line| !line.contains("<base href=")).collect::<Vec<&str>>().join("\n")`. -/
def stripBaseHrefLines (s : String) : String :=
  String.intercalate "\n" ((rustLines s).filter (fun l => !containsSub l "<base href="))

/-- Modelled from the spec, for comparison with `stripBaseHrefLines`:
remove each line *together with its terminator* when it contains a
base-href declaration, leaving every remaining byte — interior
terminators and any trailing newline included — unchanged. -/
def specStripBaseHref (s : String) : String :=
  let parts := splitChar '\n' s
  let chunks := parts.dropLast.map (fun l => l ++ "\n") ++
    (if parts.getLast? = some "" then [] else [parts.getLastD ""])
  String.join (chunks.filter (fun c => !containsSub c "<base href="))

/-- `Path::with_extension("html")` on a relative path string: replace the
final component's extension (the part after its last dot; a lone leading
dot does not start an extension) by `html`; the empty path is unchanged. -/
def withExtensionHtml (p : String) : String :=
  if p = "" then ""
  else
    let comps := splitChar '/' p
    let file := comps.getLastD ""
    let segs := splitChar '.' file
    let stem :=
      if segs.length ≤ 1 then file
      else if segs.headD "" = "" ∧ segs.length = 2 then file
      else String.intercalate "." segs.dropLast
    String.intercalate "/" (comps.dropLast ++ [stem ++ ".html"])

/-- `Path::join` for the uses in the renderer (source root joined with a
non-absolute relative path). -/
def joinPath (a b : String) : String :=
  if a = "" then b else a ++ "/" ++ b

/-- `Path::parent`: drop the final component; `none` for the empty or root
path. -/
def parentDir (p : String) : Option String :=
  if p = "" ∨ p = "/" then none
  else some (String.intercalate "/" ((splitChar '/' p).dropLast))

/-- Lines 76–78: run the playpen preprocessor when the source path has a
parent directory, passing that directory as resolution base. -/
def applyPlaypen (env : RenderEnv) (srcPath raw : String) : String :=
  match parentDir srcPath with
  | some p => env.renderPlaypen raw p
  | none => raw

/-- The chapter carried by a `Chapter` or `Affix` node. -/
def contentChapter : BookItem → Option Chapter
  | .Chapter _ ch => some ch
  | .Affix ch => some ch
  | .Spacer => none

/-- The chapter of a content-bearing node with non-empty path (the nodes
the per-item loop actually renders). -/
def contentNode? (item : BookItem) : Option Chapter :=
  match contentChapter item with
  | some ch => if ch.path = "" then none else some ch
  | none => none

/-- Lines 66–81: read the source file, apply the playpen preprocessor and
the markdown converter.  `none` when the read fails. -/
def pageContent (env : RenderEnv) (book : MDBook) (ch : Chapter) : Option String :=
  match env.srcRead (joinPath book.src ch.path) with
  | .ok raw => some (env.renderMarkdown (applyPlaypen env (joinPath book.src ch.path) raw))
  | _ => none

/-- Lines 85–90: the per-page context overlay — `path`, `content`,
`chapter_title`, `path_to_root` inserted over the current data map. -/
def pageCtxOf (env : RenderEnv) (d : Ctx) (ch : Chapter) (content : String) : Ctx :=
  insertCtx "path_to_root" (.str (env.pathToRoot ch.path))
    (insertCtx "chapter_title" (.str ch.name)
      (insertCtx "content" (.str content)
        (insertCtx "path" (.str ch.path) d)))

/-- Lines 131–133: the print-page context overlay; `chapter_title` is left
as whatever the last page put there. -/
def printCtxOf (env : RenderEnv) (d : Ctx) (printContent : String) : Ctx :=
  insertCtx "path_to_root" (.str (env.pathToRoot "print.md"))
    (insertCtx "content" (.str printContent)
      (insertCtx "path" (.str "print.md") d))

/-- The loop state of `render`: the mutable context map `data`, the print
accumulator, the `index` flag, plus the observation traces — `writes`
(most recent first) records every successful `write_file`, and `calls`
(most recent first) records every context passed to `handlebars.render`. -/
structure LoopSt where
  data : Ctx
  printContent : String
  indexPending : Bool
  writes : List (String × WData)
  calls : List Ctx
deriving Repr, DecidableEq, Inhabited

/-- The observations of a successful render. -/
structure RenderOut where
  writes : List (String × WData)
  calls : List Ctx
deriving Repr, DecidableEq, Inhabited

/-- Lines 61–125: process one `BookItem`.  Spacers and empty-path chapters
are skipped; a content node is read, preprocessed, converted, rendered and
written, and while `indexPending` holds the just-written output file is
re-opened, re-read (the `read_to_string` result is discarded into
`_source`, so a read failure leaves the buffer empty and is *not*
propagated), filtered, and written as `index.html`. -/
def processItem (env : RenderEnv) (book : MDBook) (st : LoopSt) (item : BookItem) :
    Except RErr LoopSt :=
  match contentChapter item with
  | none => .ok st
  | some ch =>
    if ch.path = "" then .ok st
    else
      match env.srcRead (joinPath book.src ch.path) with
      | .openErr => .error (.srcOpen (joinPath book.src ch.path))
      | .readErr => .error (.srcFileRead (joinPath book.src ch.path))
      | .ok raw =>
        let content := env.renderMarkdown (applyPlaypen env (joinPath book.src ch.path) raw)
        let data := pageCtxOf env st.data ch content
        match env.hbRender data with
        | none => .error .hbRender
        | some rendered =>
          let filename := withExtensionHtml ch.path
          if env.writeFail filename then .error (.writeFile filename)
          else
            let st₂ : LoopSt :=
              { data := data
                printContent := st.printContent ++ content
                indexPending := st.indexPending
                writes := (filename, .str rendered) :: st.writes
                calls := data :: st.calls }
            if st₂.indexPending then
              if env.destOpenFail filename then .error (.destOpen filename)
              else
                let c : String :=
                  if env.destReadFail filename then ""
                  else
                    match st₂.writes.find? (fun w => w.1 == filename) with
                    | some (_, .str s) => s
                    | _ => ""
                if env.writeFail "index.html" then .error (.writeFile "index.html")
                else
                  .ok { st₂ with
                        writes := ("index.html", .str (stripBaseHrefLines c)) :: st₂.writes
                        indexPending := false }
            else .ok st₂

/-- The `for item in book.iter()` loop. -/
def processItems (env : RenderEnv) (book : MDBook) :
    List BookItem → LoopSt → Except RErr LoopSt
  | [], st => .ok st
  | item :: rest, st =>
    match processItem env book st item with
    | .error e => .error e
    | .ok st' => processItems env book rest st'

/-- Lines 184–202: one chapter-summary map per node kind. -/
def chapterEntry : BookItem → List (String × String)
  | .Affix ch => [("name", ch.name), ("path", ch.path)]
  | .Chapter s ch => [("section", s), ("name", ch.name), ("path", ch.path)]
  | .Spacer => [("spacer", "_spacer_")]

/-- Lines 166–211, `make_data`: the Book Context.  `language` and
`favicon` are the string constants `"en"` and `"favicon.png"`;
`livereload` is inserted only when configured; `chapters` is one summary
per node in traversal order.  (The only failure in the original,
`Path::to_str` on a non-UTF-8 path, is unrepresentable here because paths
are embedded as strings.) -/
def make_data (book : MDBook) : Ctx :=
  let data : Ctx := []
  let data := insertCtx "language" (.str "en") data
  let data := insertCtx "title" (.str book.title) data
  let data := insertCtx "description" (.str book.description) data
  let data := insertCtx "favicon" (.str "favicon.png") data
  let data :=
    match book.livereload with
    | some l => insertCtx "livereload" (.str l) data
    | none => data
  insertCtx "chapters" (.chaps (book.items.map chapterEntry)) data

/-- Lines 144–157: the static asset writes, in program order, with their
fixed destination-relative paths (note `FontAwesome.ttf` re-writes the
`FONT_AWESOME_TTF` bytes). -/
def assetWrites (t : Theme) : List (String × WData) :=
  [("book.js", .bytes t.js),
   ("book.css", .bytes t.css),
   ("favicon.png", .bytes t.favicon),
   ("jquery.js", .bytes t.jquery),
   ("highlight.css", .bytes t.highlight_css),
   ("tomorrow-night.css", .bytes t.tomorrow_night_css),
   ("highlight.js", .bytes t.highlight_js),
   ("_FontAwesome/css/font-awesome.css", .bytes t.fontAwesomeCss),
   ("_FontAwesome/fonts/fontawesome-webfont.eot", .bytes t.fontAwesomeEot),
   ("_FontAwesome/fonts/fontawesome-webfont.svg", .bytes t.fontAwesomeSvg),
   ("_FontAwesome/fonts/fontawesome-webfont.ttf", .bytes t.fontAwesomeTtf),
   ("_FontAwesome/fonts/fontawesome-webfont.woff", .bytes t.fontAwesomeWoff),
   ("_FontAwesome/fonts/fontawesome-webfont.woff2", .bytes t.fontAwesomeWoff2),
   ("_FontAwesome/fonts/FontAwesome.ttf", .bytes t.fontAwesomeTtf)]

/-- Sequential `write_file` calls, each fallible. -/
def writeAll (env : RenderEnv) (st : LoopSt) : List (String × WData) → Except RErr LoopSt
  | [] => .ok st
  | (p, d) :: rest =>
    if env.writeFail p then .error (.writeFile p)
    else writeAll env { st with writes := (p, d) :: st.writes } rest

/-- The loop state at entry of the per-item loop. -/
def initSt (book : MDBook) : LoopSt :=
  { data := make_data book
    printContent := ""
    indexPending := true
    writes := []
    calls := [] }

/-- Lines 128–162: the steps after the per-item loop — update the context
for the print page (`chapter_title` is left as-is), render and write
`print.html`, write the theme assets, copy the non-markdown files. -/
def finishRender (env : RenderEnv) (st : LoopSt) : Except RErr RenderOut :=
  let data := printCtxOf env st.data st.printContent
  match env.hbRender data with
  | none => .error .hbRender
  | some rendered =>
    let st := { st with data := data, calls := data :: st.calls }
    if env.writeFail "print.html" then .error (.writeFile "print.html")
    else
      let st := { st with writes := ("print.html", .str rendered) :: st.writes }
      match writeAll env st (assetWrites env.theme) with
      | .error e => .error e
      | .ok st =>
        if !env.copyOk then .error .copy
        else .ok { writes := st.writes, calls := st.calls }

/-- Lines 28–163, `HtmlHandlebars::render`: decode and register the
template, build the Book Context, create the destination directory, run
the per-item loop, then the print page, theme assets and auxiliary
copy. -/
def render (book : MDBook) (env : RenderEnv) : Except RErr RenderOut :=
  match env.theme.index with
  | none => .error .templateDecode
  | some _ =>
    if !env.registerOk then .error .templateRegister
    else if !env.createDirOk then .error .createDir
    else
      match processItems env book book.items (initSt book) with
      | .error e => .error e
      | .ok st => finishRender env st

/-! ### Derived observation functions used by the specifications -/

/-- The string a write carried (`""` for byte assets). -/
def wstr : WData → String
  | .str s => s
  | .bytes _ => ""

/-- The relative output paths the per-item loop writes, in order: one
`<path>.html` per content node with non-empty path, with `index.html`
right after the first such node while the index flag is pending. -/
def loopWritePaths : List BookItem → Bool → List String
  | [], _ => []
  | item :: rest, pending =>
    match contentNode? item with
    | none => loopWritePaths rest pending
    | some ch =>
      if pending then
        withExtensionHtml ch.path :: "index.html" :: loopWritePaths rest false
      else
        withExtensionHtml ch.path :: loopWritePaths rest false

/-- The fixed asset paths, in write order. -/
def assetPaths (t : Theme) : List String :=
  (assetWrites t).map Prod.fst

/-- Every relative path a successful render writes, in write order. -/
def renderWritePaths (book : MDBook) (t : Theme) : List String :=
  loopWritePaths book.items true ++ "print.html" :: assetPaths t

/-- Concatenation, in traversal order, of the converted HTML of every
content-bearing node with non-empty path. -/
def contentsOf (env : RenderEnv) (book : MDBook) : List BookItem → String
  | [] => ""
  | item :: rest =>
    (match contentNode? item with
     | some ch => (pageContent env book ch).getD ""
     | none => "") ++ contentsOf env book rest

/-- The name of the last content-bearing node with non-empty path. -/
def lastChapterTitle : List BookItem → Option String
  | [] => none
  | item :: rest =>
    match lastChapterTitle rest with
    | some n => some n
    | none => (contentNode? item).map Chapter.name

/-- The first content-bearing node with non-empty path, in traversal
order. -/
def firstContentNode : List BookItem → Option Chapter
  | [] => none
  | item :: rest =>
    match contentNode? item with
    | some ch => some ch
    | none => firstContentNode rest

/-- No content node's own output path is `index.html` (that is, no source
file has stem `index`), so the derived index cannot collide with a page's
own file. -/
def noIndexClash (items : List BookItem) : Bool :=
  items.all (fun i =>
    match contentNode? i with
    | some ch => withExtensionHtml ch.path != "index.html"
    | none => true)

/-- Replace the re-read fault oracle of an environment. -/
def setDestReadFail (env : RenderEnv) (f : String → Bool) : RenderEnv :=
  { env with destReadFail := f }

/-- The successful result of a render, `default` when it failed. -/
def okOr (x : Except RErr RenderOut) : RenderOut :=
  match x with
  | .ok o => o
  | .error _ => default

/-! ### Concrete data for witnesses and counterexamples -/

/-- A small concrete theme with distinct placeholder byte assets. -/
def themeW : Theme :=
  { index := some "T", js := [1], css := [2], favicon := [3], jquery := [4],
    highlight_css := [5], tomorrow_night_css := [6], highlight_js := [7],
    fontAwesomeCss := [8], fontAwesomeEot := [9], fontAwesomeSvg := [10],
    fontAwesomeTtf := [11], fontAwesomeWoff := [12], fontAwesomeWoff2 := [13] }

/-- A fault-free environment around a given template engine. -/
def envStd (hb : Ctx → Option String) : RenderEnv :=
  { theme := themeW, registerOk := true, createDirOk := true,
    srcRead := fun p => .ok ("raw:" ++ p),
    destOpenFail := fun _ => false, destReadFail := fun _ => false,
    writeFail := fun _ => false, copyOk := true,
    hbRender := hb,
    renderPlaypen := fun s _ => s,
    renderMarkdown := fun s => "<p>" ++ s ++ "</p>",
    pathToRoot := fun _ => "" }

/-- A template engine that wraps the context's `content` field. -/
def hbByContent : Ctx → Option String := fun c =>
  match lookupCtx "content" c with
  | some (.str s) => some ("H[" ++ s ++ "]")
  | _ => none

def envW : RenderEnv := envStd hbByContent

/-- The spec's running scenario: a numbered chapter, a spacer, an affix,
and a structural-only (empty-path) chapter. -/
def bkW : MDBook :=
  { title := "T", description := "D", livereload := none, src := "s", dest := "d",
    items := [.Chapter "1." ⟨"Intro", "intro.md"⟩, .Spacer,
              .Affix ⟨"Appendix", "app.md"⟩, .Chapter "2." ⟨"Heading", ""⟩] }

def outW : RenderOut := okOr (render bkW envW)

/-- A one-chapter book. -/
def bkIntro : MDBook :=
  { title := "T", description := "D", livereload := none, src := "s", dest := "d",
    items := [.Chapter "1." ⟨"Intro", "intro.md"⟩] }

def outIntro : RenderOut := okOr (render bkIntro envW)

/-- An engine whose rendered page ends with a newline. -/
def envNl : RenderEnv := envStd (fun _ => some "hello\n")

def outNl : RenderOut := okOr (render bkIntro envNl)

/-- The fault-free environment with the index re-read failing everywhere. -/
def envSwallow : RenderEnv := setDestReadFail envW (fun _ => true)

def outSwallow : RenderOut := okOr (render bkIntro envSwallow)

/-- A book whose only chapter has source path `index.md`, so its own
output file is `index.html`. -/
def bkIndexMd : MDBook :=
  { title := "T", description := "D", livereload := none, src := "s", dest := "d",
    items := [.Chapter "1." ⟨"Idx", "index.md"⟩] }

def outIndexMd : RenderOut := okOr (render bkIndexMd envW)

/-- Two books with entirely different metadata. -/
def bkMetaA : MDBook :=
  { title := "Alpha", description := "ADesc", livereload := some "lrA",
    src := "sa", dest := "da", items := [] }

def bkMetaB : MDBook :=
  { title := "Beta", description := "BDesc", livereload := none,
    src := "sb", dest := "db", items := [] }

/-- A book with no content-bearing node of non-empty path. -/
def bkHollow : MDBook :=
  { title := "T", description := "D", livereload := none, src := "s", dest := "d",
    items := [.Spacer, .Chapter "1." ⟨"Head", ""⟩] }

def outHollow : RenderOut := okOr (render bkHollow envW)

end MdBook

namespace MdBook

/-! ### Context map lemmas -/

theorem lookupCtx_insertCtx (k k' : String) (v : Val) (c : Ctx) :
    lookupCtx k (insertCtx k' v c) = if k' = k then some v else lookupCtx k c := by
  induction c with
  | nil =>
    by_cases h : k' = k
    · subst h; simp [insertCtx, lookupCtx, List.find?]
    · have hb : (k' == k) = false := by simpa using h
      simp [insertCtx, lookupCtx, List.find?, hb, h]
  | cons p rest ih =>
    obtain ⟨k₀, v₀⟩ := p
    by_cases h0 : k₀ = k'
    · subst h0
      by_cases h : k₀ = k
      · subst h; simp [insertCtx, lookupCtx, List.find?]
      · have hb : (k₀ == k) = false := by simpa using h
        simp [insertCtx, lookupCtx, List.find?, hb, h]
    · have hstep : insertCtx k' v ((k₀, v₀) :: rest) = (k₀, v₀) :: insertCtx k' v rest := by
        simp [insertCtx, h0]
      rw [hstep]
      by_cases h1 : k₀ = k
      · subst h1
        have hne : k' ≠ k₀ := fun hh => h0 hh.symm
        simp [lookupCtx, List.find?, hne]
      · have hb : (k₀ == k) = false := by simpa using h1
        have e1 : lookupCtx k ((k₀, v₀) :: insertCtx k' v rest) = lookupCtx k (insertCtx k' v rest) := by
          simp [lookupCtx, List.find?, hb]
        have e2 : lookupCtx k ((k₀, v₀) :: rest) = lookupCtx k rest := by
          simp [lookupCtx, List.find?, hb]
        rw [e1, e2, ih]

theorem lookupCtx_insertCtx_self (k : String) (v : Val) (c : Ctx) :
    lookupCtx k (insertCtx k v c) = some v := by
  simp [lookupCtx_insertCtx]

theorem lookupCtx_insertCtx_ne (k k' : String) (v : Val) (c : Ctx) (h : k' ≠ k) :
    lookupCtx k (insertCtx k' v c) = lookupCtx k c := by
  simp [lookupCtx_insertCtx, h]

/-! ### Single-step lemmas for the per-item loop -/

/-- Spacers and empty-path nodes leave the loop state unchanged. -/
theorem processItem_skip (env : RenderEnv) (book : MDBook) (st : LoopSt) (item : BookItem)
    (hc : contentNode? item = none) :
    processItem env book st item = .ok st := by
  cases item with
  | Spacer => rfl
  | Chapter sec ch =>
    have hp : ch.path = "" := by
      by_contra hne
      simp [contentNode?, contentChapter, hne] at hc
    simp [processItem, contentChapter, hp]
  | Affix ch =>
    have hp : ch.path = "" := by
      by_contra hne
      simp [contentNode?, contentChapter, hne] at hc
    simp [processItem, contentChapter, hp]

/-- Shape of the chapter a `contentNode?` returns. -/
theorem contentNode?_eq_some (item : BookItem) (ch : Chapter)
    (hc : contentNode? item = some ch) :
    contentChapter item = some ch ∧ ch.path ≠ "" := by
  cases item with
  | Spacer => simp [contentNode?, contentChapter] at hc
  | Chapter sec ch0 =>
    by_cases hp : ch0.path = "" <;> simp_all [contentNode?, contentChapter]
  | Affix ch0 =>
    by_cases hp : ch0.path = "" <;> simp_all [contentNode?, contentChapter]

/-- Full elimination of a successful `processItem` step on a content node:
every fallible sub-step succeeded (except possibly the swallowed
`read_to_string` of the re-read), and the next state is determined. -/
theorem processItem_content_ok (env : RenderEnv) (book : MDBook) (st st' : LoopSt)
    (item : BookItem) (ch : Chapter)
    (hc : contentNode? item = some ch)
    (h : processItem env book st item = .ok st') :
    ∃ raw content rendered,
      env.srcRead (joinPath book.src ch.path) = .ok raw
      ∧ content = env.renderMarkdown (applyPlaypen env (joinPath book.src ch.path) raw)
      ∧ pageContent env book ch = some content
      ∧ env.hbRender (pageCtxOf env st.data ch content) = some rendered
      ∧ env.writeFail (withExtensionHtml ch.path) = false
      ∧ (st.indexPending = true →
          env.destOpenFail (withExtensionHtml ch.path) = false
          ∧ env.writeFail "index.html" = false)
      ∧ st' = { data := pageCtxOf env st.data ch content
                printContent := st.printContent ++ content
                indexPending := false
                writes := (if st.indexPending then
                    [("index.html", WData.str (stripBaseHrefLines
                        (if env.destReadFail (withExtensionHtml ch.path) then "" else rendered))),
                     (withExtensionHtml ch.path, WData.str rendered)]
                  else [(withExtensionHtml ch.path, WData.str rendered)]) ++ st.writes
                calls := pageCtxOf env st.data ch content :: st.calls } := by
  obtain ⟨hcc, hp⟩ := contentNode?_eq_some item ch hc
  simp only [processItem, hcc, if_neg hp] at h
  split at h
  · exact Except.noConfusion h
  · exact Except.noConfusion h
  · rename_i raw hsr
    split at h
    · exact Except.noConfusion h
    · rename_i rendered hhb
      split at h
      · exact Except.noConfusion h
      · rename_i hwf
        have hwf' : env.writeFail (withExtensionHtml ch.path) = false := by
          simpa using hwf
        split at h
        · -- indexPending holds: the index branch ran
          rename_i hip
          split at h
          · exact Except.noConfusion h
          · rename_i hdo
            have hdo' : env.destOpenFail (withExtensionHtml ch.path) = false := by
              simpa using hdo
            split at h
            · exact Except.noConfusion h
            · rename_i hwi
              have hwi' : env.writeFail "index.html" = false := by
                simpa using hwi
              rw [Except.ok.injEq] at h
              refine ⟨raw, _, rendered, hsr, rfl, by simp [pageContent, hsr], hhb, hwf',
                fun _ => ⟨hdo', hwi'⟩, ?_⟩
              rw [← h]
              simp only [hip, if_true]
              congr 2
              simp [List.find?]
        · -- indexPending is false: only the page file was written
          rename_i hip
          have hip' : st.indexPending = false := by simpa using hip
          rw [Except.ok.injEq] at h
          refine ⟨raw, _, rendered, hsr, rfl, by simp [pageContent, hsr], hhb, hwf',
            fun hcontra => absurd hcontra (by simp [hip']), ?_⟩
          rw [← h]
          simp [hip']

end MdBook

namespace MdBook

/-! ### Loop-level lemmas -/

theorem processItems_nil (env : RenderEnv) (book : MDBook) (st : LoopSt) :
    processItems env book [] st = .ok st := rfl

theorem processItems_cons (env : RenderEnv) (book : MDBook) (item : BookItem)
    (rest : List BookItem) (st : LoopSt) :
    processItems env book (item :: rest) st =
      match processItem env book st item with
      | .error e => .error e
      | .ok st' => processItems env book rest st' := rfl

/-- The loop only prepends to the write trace. -/
theorem processItems_writes_mono (env : RenderEnv) (book : MDBook) :
    ∀ (items : List BookItem) (st st' : LoopSt),
      processItems env book items st = .ok st' →
      ∃ w, st'.writes = w ++ st.writes := by
  intro items
  induction items with
  | nil =>
    intro st st' h
    simp only [processItems, Except.ok.injEq] at h
    subst h
    exact ⟨[], rfl⟩
  | cons item rest ih =>
    intro st st' h
    rw [processItems_cons] at h
    cases hpi : processItem env book st item with
    | error e => rw [hpi] at h; exact Except.noConfusion h
    | ok st₁ =>
      rw [hpi] at h
      obtain ⟨w, hw⟩ := ih st₁ st' h
      cases hcn : contentNode? item with
      | none =>
        rw [processItem_skip env book st item hcn, Except.ok.injEq] at hpi
        subst hpi
        exact ⟨w, hw⟩
      | some ch =>
        obtain ⟨raw, content, rendered, _, _, _, _, _, _, hst⟩ :=
          processItem_content_ok env book st st₁ item ch hcn hpi
        refine ⟨w ++ (if st.indexPending then
            [("index.html", WData.str (stripBaseHrefLines
                (if env.destReadFail (withExtensionHtml ch.path) then "" else rendered))),
             (withExtensionHtml ch.path, WData.str rendered)]
          else [(withExtensionHtml ch.path, WData.str rendered)]), ?_⟩
        rw [hw, hst]
        simp [List.append_assoc]

/-- Master write-trace lemma: the paths written by the loop are exactly
`loopWritePaths`. -/
theorem processItems_writes_paths (env : RenderEnv) (book : MDBook) :
    ∀ (items : List BookItem) (st st' : LoopSt),
      processItems env book items st = .ok st' →
      st'.writes.map Prod.fst =
        (loopWritePaths items st.indexPending).reverse ++ st.writes.map Prod.fst := by
  intro items
  induction items with
  | nil =>
    intro st st' h
    simp only [processItems, Except.ok.injEq] at h
    subst h
    simp [loopWritePaths]
  | cons item rest ih =>
    intro st st' h
    rw [processItems_cons] at h
    cases hpi : processItem env book st item with
    | error e => rw [hpi] at h; exact Except.noConfusion h
    | ok st₁ =>
      rw [hpi] at h
      have hrec := ih st₁ st' h
      cases hcn : contentNode? item with
      | none =>
        rw [processItem_skip env book st item hcn, Except.ok.injEq] at hpi
        subst hpi
        rw [hrec]
        simp [loopWritePaths, hcn]
      | some ch =>
        obtain ⟨raw, content, rendered, _, _, _, _, _, _, hst⟩ :=
          processItem_content_ok env book st st₁ item ch hcn hpi
        rw [hst] at hrec
        simp only at hrec
        cases hip : st.indexPending with
        | true =>
          rw [hip] at hrec
          simp only [if_true] at hrec
          rw [hrec]
          simp [loopWritePaths, hcn, hip]
        | false =>
          rw [hip] at hrec
          simp only [Bool.false_eq_true, if_false] at hrec
          rw [hrec]
          simp [loopWritePaths, hcn, hip]

/-- Master print-accumulator lemma: the loop appends exactly the converted
HTML of every content node, in order. -/
theorem processItems_printContent (env : RenderEnv) (book : MDBook) :
    ∀ (items : List BookItem) (st st' : LoopSt),
      processItems env book items st = .ok st' →
      st'.printContent = st.printContent ++ contentsOf env book items := by
  intro items
  induction items with
  | nil =>
    intro st st' h
    simp only [processItems, Except.ok.injEq] at h
    subst h
    simp [contentsOf]
  | cons item rest ih =>
    intro st st' h
    rw [processItems_cons] at h
    cases hpi : processItem env book st item with
    | error e => rw [hpi] at h; exact Except.noConfusion h
    | ok st₁ =>
      rw [hpi] at h
      have hrec := ih st₁ st' h
      cases hcn : contentNode? item with
      | none =>
        rw [processItem_skip env book st item hcn, Except.ok.injEq] at hpi
        subst hpi
        rw [hrec]
        simp [contentsOf, hcn]
      | some ch =>
        obtain ⟨raw, content, rendered, _, hcontent, hpc, _, _, _, hst⟩ :=
          processItem_content_ok env book st st₁ item ch hcn hpi
        rw [hst] at hrec
        simp only at hrec
        rw [hrec]
        simp [contentsOf, hcn, hpc, String.append_assoc]

/-- Master context lemma: after the loop, `chapter_title` holds the name
of the last rendered chapter, or is untouched when none rendered. -/
theorem processItems_chapter_title (env : RenderEnv) (book : MDBook) :
    ∀ (items : List BookItem) (st st' : LoopSt),
      processItems env book items st = .ok st' →
      lookupCtx "chapter_title" st'.data =
        match lastChapterTitle items with
        | some n => some (.str n)
        | none => lookupCtx "chapter_title" st.data := by
  intro items
  induction items with
  | nil =>
    intro st st' h
    simp only [processItems, Except.ok.injEq] at h
    subst h
    simp [lastChapterTitle]
  | cons item rest ih =>
    intro st st' h
    rw [processItems_cons] at h
    cases hpi : processItem env book st item with
    | error e => rw [hpi] at h; exact Except.noConfusion h
    | ok st₁ =>
      rw [hpi] at h
      have hrec := ih st₁ st' h
      cases hlt : lastChapterTitle rest with
      | some n =>
        rw [hlt] at hrec
        simp only at hrec
        rw [hrec]
        simp [lastChapterTitle, hlt]
      | none =>
        rw [hlt] at hrec
        simp only at hrec
        cases hcn : contentNode? item with
        | none =>
          rw [processItem_skip env book st item hcn, Except.ok.injEq] at hpi
          subst hpi
          rw [hrec]
          simp [lastChapterTitle, hlt, hcn]
        | some ch =>
          obtain ⟨raw, content, rendered, _, _, _, _, _, _, hst⟩ :=
            processItem_content_ok env book st st₁ item ch hcn hpi
          rw [hst] at hrec
          simp only at hrec
          rw [hrec]
          have hlast : lastChapterTitle (item :: rest) = some ch.name := by
            simp [lastChapterTitle, hlt, hcn]
          rw [hlast]
          simp only [pageCtxOf]
          rw [lookupCtx_insertCtx_ne _ _ _ _ (by decide),
              lookupCtx_insertCtx_self]

end MdBook

namespace MdBook

/-! ### Render-level lemmas -/

/-- `writeAll` only prepends the given writes, in order, and fails exactly
on the first path whose write fails. -/
theorem writeAll_ok (env : RenderEnv) :
    ∀ (l : List (String × WData)) (st st' : LoopSt),
      writeAll env st l = .ok st' →
      st' = { st with writes := l.reverse ++ st.writes } := by
  intro l
  induction l with
  | nil =>
    intro st st' h
    simp only [writeAll, Except.ok.injEq] at h
    subst h
    simp
  | cons pd rest ih =>
    intro st st' h
    obtain ⟨p, d⟩ := pd
    simp only [writeAll] at h
    split at h
    · exact Except.noConfusion h
    · have := ih _ _ h
      rw [this]
      simp

/-- Elimination of a successful `finishRender`: the print render and every
write succeeded, and the output is assembled from the loop's final
state. -/
theorem finishRender_ok (env : RenderEnv) (st : LoopSt) (out : RenderOut)
    (h : finishRender env st = .ok out) :
    ∃ pr,
      env.hbRender (printCtxOf env st.data st.printContent) = some pr
      ∧ env.writeFail "print.html" = false
      ∧ env.copyOk = true
      ∧ out.writes = (assetWrites env.theme).reverse
          ++ ("print.html", WData.str pr) :: st.writes
      ∧ out.calls = printCtxOf env st.data st.printContent :: st.calls := by
  unfold finishRender at h
  simp only at h
  cases hpr : env.hbRender (printCtxOf env st.data st.printContent) with
  | none => rw [hpr] at h; exact Except.noConfusion h
  | some pr =>
    rw [hpr] at h
    simp only at h
    cases hpw : env.writeFail "print.html" with
    | true => rw [hpw] at h; simp at h
    | false =>
      rw [hpw] at h
      simp only [Bool.false_eq_true, if_false] at h
      split at h
      · exact Except.noConfusion h
      · rename_i stB hwa
        split at h
        · exact Except.noConfusion h
        · rename_i hcopy
          rw [Except.ok.injEq] at h
          have hA := writeAll_ok env _ _ _ hwa
          refine ⟨pr, rfl, rfl, by simpa using hcopy, ?_, ?_⟩
          · rw [← h, hA]
          · rw [← h, hA]

/-- Elimination of a successful `render`: all the unconditional steps
succeeded and the output is assembled from the loop's final state. -/
theorem render_ok_elim (book : MDBook) (env : RenderEnv) (out : RenderOut)
    (h : render book env = .ok out) :
    ∃ st' pr tpl,
      env.theme.index = some tpl
      ∧ env.registerOk = true ∧ env.createDirOk = true ∧ env.copyOk = true
      ∧ processItems env book book.items (initSt book) = .ok st'
      ∧ env.hbRender (printCtxOf env st'.data st'.printContent) = some pr
      ∧ env.writeFail "print.html" = false
      ∧ out.writes = (assetWrites env.theme).reverse
          ++ ("print.html", WData.str pr) :: st'.writes
      ∧ out.calls = printCtxOf env st'.data st'.printContent :: st'.calls := by
  unfold render at h
  split at h
  · exact Except.noConfusion h
  · rename_i tpl htpl
    split at h
    · exact Except.noConfusion h
    · rename_i hreg
      split at h
      · exact Except.noConfusion h
      · rename_i hdir
        split at h
        · exact Except.noConfusion h
        · rename_i st' hloop
          obtain ⟨pr, hpr, hpw, hcopy, hw, hc⟩ := finishRender_ok env st' out h
          exact ⟨st', pr, tpl, htpl, by simpa using hreg, by simpa using hdir,
            hcopy, hloop, hpr, hpw, hw, hc⟩

end MdBook

namespace MdBook

/-- First-content-node lemma: starting with a pending index flag and an
empty trace, the trace (oldest first) begins with the first content node's
own page followed immediately by the derived `index.html`, whose content
is the base-href filter of that page (when the re-read did not fault). -/
theorem processItems_first_index (env : RenderEnv) (book : MDBook) :
    ∀ (items : List BookItem) (st st' : LoopSt) (ch : Chapter),
      firstContentNode items = some ch →
      env.destReadFail (withExtensionHtml ch.path) = false →
      st.indexPending = true → st.writes = [] →
      processItems env book items st = .ok st' →
      ∃ r rest₂, st'.writes.reverse =
        (withExtensionHtml ch.path, WData.str r)
          :: ("index.html", WData.str (stripBaseHrefLines r)) :: rest₂ := by
  intro items
  induction items with
  | nil =>
    intro st st' ch hfirst
    simp [firstContentNode] at hfirst
  | cons item rest ih =>
    intro st st' ch hfirst hread hpend hw h
    rw [processItems_cons] at h
    cases hpi : processItem env book st item with
    | error e => rw [hpi] at h; exact Except.noConfusion h
    | ok st₁ =>
      rw [hpi] at h
      cases hcn : contentNode? item with
      | none =>
        rw [processItem_skip env book st item hcn, Except.ok.injEq] at hpi
        subst hpi
        have hfirst' : firstContentNode rest = some ch := by
          simpa [firstContentNode, hcn] using hfirst
        exact ih st st' ch hfirst' hread hpend hw h
      | some ch0 =>
        have hch : ch0 = ch := by
          simpa [firstContentNode, hcn] using hfirst
        subst hch
        obtain ⟨raw, content, rendered, _, _, _, _, _, _, hst⟩ :=
          processItem_content_ok env book st st₁ item ch0 hcn hpi
        obtain ⟨w, hwm⟩ := processItems_writes_mono env book rest st₁ st' h
        refine ⟨rendered, w.reverse, ?_⟩
        rw [hwm, hst]
        simp [hpend, hw, hread]

/-! ### Independence of success from the swallowed re-read failure -/

theorem setDestReadFail_srcRead (env : RenderEnv) (f : String → Bool) :
    (setDestReadFail env f).srcRead = env.srcRead := rfl

theorem setDestReadFail_hbRender (env : RenderEnv) (f : String → Bool) :
    (setDestReadFail env f).hbRender = env.hbRender := rfl

theorem setDestReadFail_writeFail (env : RenderEnv) (f : String → Bool) :
    (setDestReadFail env f).writeFail = env.writeFail := rfl

theorem setDestReadFail_destOpenFail (env : RenderEnv) (f : String → Bool) :
    (setDestReadFail env f).destOpenFail = env.destOpenFail := rfl

theorem setDestReadFail_destReadFail (env : RenderEnv) (f : String → Bool) :
    (setDestReadFail env f).destReadFail = f := rfl

theorem setDestReadFail_renderMarkdown (env : RenderEnv) (f : String → Bool) :
    (setDestReadFail env f).renderMarkdown = env.renderMarkdown := rfl

theorem setDestReadFail_theme (env : RenderEnv) (f : String → Bool) :
    (setDestReadFail env f).theme = env.theme := rfl

theorem setDestReadFail_registerOk (env : RenderEnv) (f : String → Bool) :
    (setDestReadFail env f).registerOk = env.registerOk := rfl

theorem setDestReadFail_createDirOk (env : RenderEnv) (f : String → Bool) :
    (setDestReadFail env f).createDirOk = env.createDirOk := rfl

theorem setDestReadFail_copyOk (env : RenderEnv) (f : String → Bool) :
    (setDestReadFail env f).copyOk = env.copyOk := rfl

/-- The pieces of `setDestReadFail` that stay unchanged. -/
theorem pageCtxOf_setDestReadFail (env : RenderEnv) (f : String → Bool)
    (d : Ctx) (ch : Chapter) (content : String) :
    pageCtxOf (setDestReadFail env f) d ch content = pageCtxOf env d ch content := by
  simp [pageCtxOf, setDestReadFail]

theorem printCtxOf_setDestReadFail (env : RenderEnv) (f : String → Bool)
    (d : Ctx) (pc : String) :
    printCtxOf (setDestReadFail env f) d pc = printCtxOf env d pc := by
  simp [printCtxOf, setDestReadFail]

theorem applyPlaypen_setDestReadFail (env : RenderEnv) (f : String → Bool)
    (srcPath raw : String) :
    applyPlaypen (setDestReadFail env f) srcPath raw = applyPlaypen env srcPath raw := by
  simp [applyPlaypen, setDestReadFail]

/-- `writeAll` succeeds exactly when no listed path's write faults. -/
theorem writeAll_ok_intro (env : RenderEnv) :
    ∀ (l : List (String × WData)) (st : LoopSt),
      (∀ p ∈ l.map Prod.fst, env.writeFail p = false) →
      writeAll env st l = .ok { st with writes := l.reverse ++ st.writes } := by
  intro l
  induction l with
  | nil => intro st _; simp [writeAll]
  | cons pd rest ih =>
    intro st hok
    obtain ⟨p, d⟩ := pd
    have hp : env.writeFail p = false := hok p (by simp)
    have hrest : ∀ q ∈ rest.map Prod.fst, env.writeFail q = false := by
      intro q hq
      exact hok q (by simp [hq])
    simp only [writeAll, hp, Bool.false_eq_true, if_false]
    rw [ih _ hrest]
    simp

/-- Success of `writeAll` forces every listed write to be fault-free. -/
theorem writeAll_ok_paths (env : RenderEnv) :
    ∀ (l : List (String × WData)) (st st' : LoopSt),
      writeAll env st l = .ok st' →
      ∀ p ∈ l.map Prod.fst, env.writeFail p = false := by
  intro l
  induction l with
  | nil => intro st st' _ p hp; simp at hp
  | cons pd rest ih =>
    intro st st' h p hp
    obtain ⟨q, d⟩ := pd
    simp only [writeAll] at h
    split at h
    · exact Except.noConfusion h
    · rename_i hq
      simp only [List.map_cons, List.mem_cons] at hp
      cases hp with
      | inl hpq => subst hpq; simpa using hq
      | inr hpr => exact ih _ _ h p hpr

/-- One loop step, run in an environment that differs only in the re-read
fault oracle: success and the control-relevant state components are
preserved. -/
theorem processItem_indep (env : RenderEnv) (f : String → Bool) (book : MDBook)
    (st st₂ st' : LoopSt) (item : BookItem)
    (hd : st₂.data = st.data) (hpc : st₂.printContent = st.printContent)
    (hip : st₂.indexPending = st.indexPending)
    (h : processItem env book st item = .ok st') :
    ∃ st₂', processItem (setDestReadFail env f) book st₂ item = .ok st₂'
      ∧ st₂'.data = st'.data ∧ st₂'.printContent = st'.printContent
      ∧ st₂'.indexPending = st'.indexPending := by
  cases hcn : contentNode? item with
  | none =>
    rw [processItem_skip env book st item hcn, Except.ok.injEq] at h
    subst h
    exact ⟨st₂, processItem_skip _ book st₂ item hcn, hd, hpc, hip⟩
  | some ch =>
    obtain ⟨raw, content, rendered, hsr, hct, hpcont, hhb, hwf, hidx, hst⟩ :=
      processItem_content_ok env book st st' item ch hcn h
    obtain ⟨hcc, hp⟩ := contentNode?_eq_some item ch hcn
    have hcontent2 : env.renderMarkdown
        (applyPlaypen (setDestReadFail env f) (joinPath book.src ch.path) raw) = content := by
      rw [applyPlaypen_setDestReadFail, hct]
    have hhb₂ : env.hbRender (pageCtxOf env st₂.data ch content) = some rendered := by
      rw [hd]; exact hhb
    cases hip₀ : st.indexPending with
    | false =>
      refine ⟨{ data := pageCtxOf env st₂.data ch content
                printContent := st₂.printContent ++ content
                indexPending := false
                writes := (withExtensionHtml ch.path, WData.str rendered) :: st₂.writes
                calls := pageCtxOf env st₂.data ch content :: st₂.calls }, ?_, ?_, ?_, ?_⟩
      · simp only [processItem, hcc, if_neg hp, setDestReadFail_srcRead,
          setDestReadFail_hbRender, setDestReadFail_writeFail,
          setDestReadFail_destOpenFail, setDestReadFail_destReadFail,
          setDestReadFail_renderMarkdown, applyPlaypen_setDestReadFail,
          pageCtxOf_setDestReadFail, hsr, ← hct, hhb₂, hwf,
          Bool.false_eq_true, if_false, hip, hip₀]
      · rw [hst]; simp [hd]
      · rw [hst]; simp [hpc]
      · rw [hst]
    | true =>
      obtain ⟨hdo, hwi⟩ := hidx hip₀
      refine ⟨{ data := pageCtxOf env st₂.data ch content
                printContent := st₂.printContent ++ content
                indexPending := false
                writes := ("index.html", WData.str (stripBaseHrefLines
                    (if f (withExtensionHtml ch.path) then "" else rendered)))
                  :: (withExtensionHtml ch.path, WData.str rendered) :: st₂.writes
                calls := pageCtxOf env st₂.data ch content :: st₂.calls }, ?_, ?_, ?_, ?_⟩
      · simp only [processItem, hcc, if_neg hp, setDestReadFail_srcRead,
          setDestReadFail_hbRender, setDestReadFail_writeFail,
          setDestReadFail_destOpenFail, setDestReadFail_destReadFail,
          setDestReadFail_renderMarkdown, applyPlaypen_setDestReadFail,
          pageCtxOf_setDestReadFail, hsr, ← hct, hhb₂, hwf,
          Bool.false_eq_true, if_false, hip, hip₀, hdo, hwi, if_true, List.find?]
        simp
      · rw [hst]; simp [hd]
      · rw [hst]; simp [hpc]
      · rw [hst]

end MdBook

namespace MdBook

/-- `writeAll` does not consult the re-read fault oracle. -/
theorem writeAll_setDestReadFail (env : RenderEnv) (f : String → Bool) :
    ∀ (l : List (String × WData)) (st : LoopSt),
      writeAll (setDestReadFail env f) st l = writeAll env st l := by
  intro l
  induction l with
  | nil => intro st; rfl
  | cons pd rest ih =>
    intro st
    obtain ⟨p, d⟩ := pd
    simp only [writeAll, setDestReadFail_writeFail]
    split
    · rfl
    · exact ih _

/-- A successful `finishRender` had a fault-free write for every theme
asset path. -/
theorem finishRender_ok_assets (env : RenderEnv) (st : LoopSt) (out : RenderOut)
    (h : finishRender env st = .ok out) :
    ∀ p ∈ (assetWrites env.theme).map Prod.fst, env.writeFail p = false := by
  unfold finishRender at h
  simp only at h
  cases hpr : env.hbRender (printCtxOf env st.data st.printContent) with
  | none => rw [hpr] at h; exact Except.noConfusion h
  | some pr =>
    rw [hpr] at h
    simp only at h
    cases hpw : env.writeFail "print.html" with
    | true => rw [hpw] at h; simp at h
    | false =>
      rw [hpw] at h
      simp only [Bool.false_eq_true, if_false] at h
      split at h
      · exact Except.noConfusion h
      · rename_i stB hwa
        exact writeAll_ok_paths env _ _ _ hwa

/-- Loop-level independence: success of the loop, and the
control-relevant state components, do not depend on the re-read fault
oracle. -/
theorem processItems_indep (env : RenderEnv) (f : String → Bool) (book : MDBook) :
    ∀ (items : List BookItem) (st st₂ st' : LoopSt),
      st₂.data = st.data → st₂.printContent = st.printContent →
      st₂.indexPending = st.indexPending →
      processItems env book items st = .ok st' →
      ∃ st₂', processItems (setDestReadFail env f) book items st₂ = .ok st₂'
        ∧ st₂'.data = st'.data ∧ st₂'.printContent = st'.printContent
        ∧ st₂'.indexPending = st'.indexPending := by
  intro items
  induction items with
  | nil =>
    intro st st₂ st' hd hpc hip h
    simp only [processItems, Except.ok.injEq] at h
    subst h
    exact ⟨st₂, rfl, hd, hpc, hip⟩
  | cons item rest ih =>
    intro st st₂ st' hd hpc hip h
    rw [processItems_cons] at h
    cases hpi : processItem env book st item with
    | error e => rw [hpi] at h; exact Except.noConfusion h
    | ok st₁ =>
      rw [hpi] at h
      obtain ⟨st₂₁, hstep, r1, r2, r3⟩ :=
        processItem_indep env f book st st₂ st₁ item hd hpc hip hpi
      obtain ⟨st₂', hrest, s1, s2, s3⟩ := ih st₁ st₂₁ st' r1 r2 r3 h
      refine ⟨st₂', ?_, s1, s2, s3⟩
      rw [processItems_cons, hstep]
      exact hrest

/-- Render-level independence: whether the swallowed `read_to_string`
during index derivation fails never affects whether the render
succeeds. -/
theorem render_indep (book : MDBook) (env : RenderEnv) (f : String → Bool)
    (out : RenderOut) (h : render book env = .ok out) :
    ∃ out', render book (setDestReadFail env f) = .ok out' := by
  unfold render at h
  split at h
  · exact Except.noConfusion h
  · rename_i tpl htpl
    split at h
    · exact Except.noConfusion h
    · rename_i hreg
      split at h
      · exact Except.noConfusion h
      · rename_i hdir
        split at h
        · exact Except.noConfusion h
        · rename_i st' hloop
          obtain ⟨st₂', hloop', hdd, hpp, hii⟩ :=
            processItems_indep env f book book.items (initSt book) (initSt book) st'
              rfl rfl rfl hloop
          obtain ⟨pr, hpr, hpw, hcopy, hw, hc⟩ := finishRender_ok env st' out h
          have hassets := finishRender_ok_assets env st' out h
          have hreg' : env.registerOk = true := by simpa using hreg
          have hdir' : env.createDirOk = true := by simpa using hdir
          refine ⟨{ writes := ((assetWrites env.theme).reverse ++ ("print.html", WData.str pr) :: st₂'.writes), calls := (printCtxOf env st'.data st'.printContent :: st₂'.calls) }, ?_⟩
          unfold render
          rw [setDestReadFail_theme, htpl]
          simp only [setDestReadFail_registerOk, setDestReadFail_createDirOk,
            hreg', hdir', Bool.not_true, Bool.false_eq_true, if_false]
          rw [hloop']
          simp only
          unfold finishRender
          simp only [printCtxOf_setDestReadFail, hdd, hpp, setDestReadFail_hbRender, hpr]
          simp only [setDestReadFail_writeFail, hpw, Bool.false_eq_true, if_false,
            setDestReadFail_theme, writeAll_setDestReadFail]
          rw [writeAll_ok_intro env _ _ hassets]
          simp [setDestReadFail_copyOk, hcopy]

end MdBook

namespace MdBook

/-! ### Context lookups in `make_data` and the print context -/

theorem printCtxOf_content (env : RenderEnv) (d : Ctx) (pc : String) :
    lookupCtx "content" (printCtxOf env d pc) = some (.str pc) := by
  unfold printCtxOf
  rw [lookupCtx_insertCtx_ne _ _ _ _ (by decide), lookupCtx_insertCtx_self]

theorem printCtxOf_chapter_title (env : RenderEnv) (d : Ctx) (pc : String) :
    lookupCtx "chapter_title" (printCtxOf env d pc) = lookupCtx "chapter_title" d := by
  unfold printCtxOf
  rw [lookupCtx_insertCtx_ne _ _ _ _ (by decide),
      lookupCtx_insertCtx_ne _ _ _ _ (by decide),
      lookupCtx_insertCtx_ne _ _ _ _ (by decide)]

theorem make_data_title (b : MDBook) :
    lookupCtx "title" (make_data b) = some (.str b.title) := by
  unfold make_data
  cases b.livereload <;> simp [lookupCtx_insertCtx]

theorem make_data_description (b : MDBook) :
    lookupCtx "description" (make_data b) = some (.str b.description) := by
  unfold make_data
  cases b.livereload <;> simp [lookupCtx_insertCtx]

theorem make_data_language (b : MDBook) :
    lookupCtx "language" (make_data b) = some (.str "en") := by
  unfold make_data
  cases b.livereload <;> simp [lookupCtx_insertCtx]

theorem make_data_favicon (b : MDBook) :
    lookupCtx "favicon" (make_data b) = some (.str "favicon.png") := by
  unfold make_data
  cases b.livereload <;> simp [lookupCtx_insertCtx]

theorem make_data_livereload (b : MDBook) :
    lookupCtx "livereload" (make_data b) = b.livereload.map Val.str := by
  unfold make_data
  cases b.livereload <;> simp [lookupCtx_insertCtx, lookupCtx, List.find?]

theorem make_data_chapters (b : MDBook) :
    lookupCtx "chapters" (make_data b) = some (.chaps (b.items.map chapterEntry)) := by
  unfold make_data
  cases b.livereload <;> simp [lookupCtx_insertCtx]

theorem make_data_no_chapter_title (b : MDBook) :
    lookupCtx "chapter_title" (make_data b) = none := by
  unfold make_data
  cases b.livereload <;> simp [lookupCtx_insertCtx, lookupCtx, List.find?]

end MdBook

namespace MdBook

theorem string_empty_append (s : String) : "" ++ s = s := by
  cases s with
  | mk data => rfl

/-! ### Claims -/

/-- C2: for every book tree, the `content` field of the context used to
render `print.html` equals the concatenation, in traversal order, of the
converted HTML of every content-bearing node with non-empty path, with no
separator; for a book with no such nodes it is the empty string
(`contentsOf` of an empty or content-free list is `""`). -/
theorem C2_print_content_concatenation (book : MDBook) (env : RenderEnv)
    (out : RenderOut) (h : render book env = .ok out) :
    lookupCtx "content" (out.calls.headD []) =
      some (.str (contentsOf env book book.items)) := by
  obtain ⟨st', pr, tpl, _, _, _, _, hloop, _, _, _, hc⟩ := render_ok_elim book env out h
  rw [hc]
  simp only [List.headD_cons]
  rw [printCtxOf_content]
  have hpc := processItems_printContent env book book.items (initSt book) st' hloop
  rw [hpc]
  rw [show (initSt book).printContent = "" from rfl, string_empty_append]

/-- Witness for C2 on the spec's running scenario book. -/
theorem C2_print_content_concatenation_witness :
    lookupCtx "content" (outW.calls.headD []) =
      some (.str (contentsOf envW bkW bkW.items)) :=
  C2_print_content_concatenation bkW envW outW (by rfl)

/-- C4 counterexample: the `language` and `favicon` context fields are the
constants `"en"` and `"favicon.png"` for two books with entirely different
metadata, and `"en"` is none of their metadata strings — so neither field
is taken from the book's metadata as the claim states. -/
theorem C4_language_counterexample :
    lookupCtx "language" (make_data bkMetaA) = some (.str "en")
    ∧ lookupCtx "language" (make_data bkMetaB) = some (.str "en")
    ∧ lookupCtx "favicon" (make_data bkMetaA) = some (.str "favicon.png")
    ∧ lookupCtx "favicon" (make_data bkMetaB) = some (.str "favicon.png")
    ∧ bkMetaA.title ≠ bkMetaB.title
    ∧ bkMetaA.description ≠ bkMetaB.description
    ∧ "en" ∉ [bkMetaA.title, bkMetaA.description, bkMetaB.title, bkMetaB.description]
    ∧ "favicon.png" ∉ [bkMetaA.title, bkMetaA.description, bkMetaB.title, bkMetaB.description] :=
  ⟨rfl, rfl, rfl, rfl, by decide, by decide, by decide, by decide⟩

/-- C4 amended: `title` and `description` come from the book's metadata,
`language` is always the constant `"en"`, the favicon path is always the
constant `"favicon.png"`, and a `livereload` field is present in the
context if and only if a live-reload endpoint is configured (with its
configured value). -/
theorem C4_global_fields_amended (b : MDBook) :
    lookupCtx "title" (make_data b) = some (.str b.title)
    ∧ lookupCtx "description" (make_data b) = some (.str b.description)
    ∧ lookupCtx "language" (make_data b) = some (.str "en")
    ∧ lookupCtx "favicon" (make_data b) = some (.str "favicon.png")
    ∧ lookupCtx "livereload" (make_data b) = b.livereload.map Val.str :=
  ⟨make_data_title b, make_data_description b, make_data_language b,
   make_data_favicon b, make_data_livereload b⟩

/-- C5 counterexample: after rendering a one-chapter book, the context
passed to the template engine for the print page still contains
`chapter_title` (the last rendered chapter's name), contradicting the
claim that it contains no `chapter_title` field. -/
theorem C5_chapter_title_counterexample :
    render bkIntro envW = .ok outIntro
    ∧ lookupCtx "chapter_title" (outIntro.calls.headD []) = some (.str "Intro") :=
  ⟨rfl, rfl⟩

/-- C5 amended: the context passed to the template engine for the print
page contains a `chapter_title` field exactly when some content-bearing
node with non-empty path was rendered, in which case it is the stale name
of the last such node; it is absent only when no content node was
rendered. -/
theorem C5_print_chapter_title_amended (book : MDBook) (env : RenderEnv)
    (out : RenderOut) (h : render book env = .ok out) :
    lookupCtx "chapter_title" (out.calls.headD []) =
      (lastChapterTitle book.items).map Val.str := by
  obtain ⟨st', pr, tpl, _, _, _, _, hloop, _, _, _, hc⟩ := render_ok_elim book env out h
  rw [hc]
  simp only [List.headD_cons]
  rw [printCtxOf_chapter_title]
  have hct := processItems_chapter_title env book book.items (initSt book) st' hloop
  rw [hct]
  have hnone : lookupCtx "chapter_title" (initSt book).data = none :=
    make_data_no_chapter_title book
  cases hl : lastChapterTitle book.items with
  | some n => simp
  | none => simp [hnone]

/-- Witness for C5 (amended) on the spec's running scenario book. -/
theorem C5_print_chapter_title_amended_witness :
    lookupCtx "chapter_title" (outW.calls.headD []) =
      (lastChapterTitle bkW.items).map Val.str :=
  C5_print_chapter_title_amended bkW envW outW (by rfl)

/-- C7: the `chapters` list of the Book Context has exactly one entry per
node of the book tree, in traversal order; a Spacer contributes the
sentinel marker entry, a Chapter contributes section/name/path, an Affix
contributes name/path. -/
theorem C7_chapter_list (b : MDBook) :
    lookupCtx "chapters" (make_data b) = some (.chaps (b.items.map chapterEntry))
    ∧ (b.items.map chapterEntry).length = b.items.length
    ∧ (∀ s ch, chapterEntry (BookItem.Chapter s ch)
        = [("section", s), ("name", ch.name), ("path", ch.path)])
    ∧ (∀ ch, chapterEntry (BookItem.Affix ch) = [("name", ch.name), ("path", ch.path)])
    ∧ chapterEntry BookItem.Spacer = [("spacer", "_spacer_")] :=
  ⟨make_data_chapters b, by simp, fun s ch => rfl, fun ch => rfl, rfl⟩

end MdBook

namespace MdBook

/-- With no content-bearing node of non-empty path, the loop writes
nothing. -/
theorem loopWritePaths_no_content :
    ∀ (items : List BookItem),
      items.all (fun i => (contentNode? i).isNone) = true →
      ∀ pending, loopWritePaths items pending = [] := by
  intro items
  induction items with
  | nil => intro _ pending; rfl
  | cons i rest ih =>
    intro hall pending
    simp only [List.all_cons, Bool.and_eq_true] at hall
    have hnone : contentNode? i = none := by
      simpa [Option.isNone_iff_eq_none] using hall.1
    simp [loopWritePaths, hnone, ih hall.2]

/-- With no content-bearing node of non-empty path, the print accumulator
stays empty. -/
theorem contentsOf_no_content (env : RenderEnv) (book : MDBook) :
    ∀ (items : List BookItem),
      items.all (fun i => (contentNode? i).isNone) = true →
      contentsOf env book items = "" := by
  intro items
  induction items with
  | nil => intro _; rfl
  | cons i rest ih =>
    intro hall
    simp only [List.all_cons, Bool.and_eq_true] at hall
    have hnone : contentNode? i = none := by
      simpa [Option.isNone_iff_eq_none] using hall.1
    simp only [contentsOf, hnone, ih hall.2]
    rfl

/-- C6: every Chapter or Affix node with non-empty path causes exactly one
output HTML file at its relative path with the extension replaced by
`.html` (with `index.html` inserted once, right after the first such
node); empty-path nodes and Spacers produce no output file (visible in the
defining equations of `loopWritePaths`); the only other writes are
`print.html` and the fixed theme assets. -/
theorem C6_output_files (book : MDBook) (env : RenderEnv) (out : RenderOut)
    (h : render book env = .ok out) :
    out.writes.reverse.map Prod.fst = renderWritePaths book env.theme := by
  obtain ⟨st', pr, tpl, _, _, _, _, hloop, _, _, hw, _⟩ := render_ok_elim book env out h
  have hpaths := processItems_writes_paths env book book.items (initSt book) st' hloop
  have hW : st'.writes.map Prod.fst = (loopWritePaths book.items true).reverse := by
    simpa [initSt] using hpaths
  rw [hw]
  simp [renderWritePaths, assetPaths, List.map_reverse, hW]

/-- Witness for C6 on the spec's running scenario book. -/
theorem C6_output_files_witness :
    outW.writes.reverse.map Prod.fst = renderWritePaths bkW envW.theme :=
  C6_output_files bkW envW outW (by rfl)

/-- C9 counterexample: in a successful render the icon-font bundle has six
font files under `_FontAwesome/fonts/` (the TTF bytes are written at two
paths), not five as the claim counts, beside the one stylesheet. -/
theorem C9_font_bundle_counterexample :
    render bkW envW = .ok outW
    ∧ ((outW.writes.map Prod.fst).filter (strStartsWith "_FontAwesome/fonts/")).length = 6
    ∧ ((outW.writes.map Prod.fst).filter (strStartsWith "_FontAwesome/css/")).length = 1
    ∧ (6 : Nat) ≠ 5 :=
  ⟨rfl, rfl, rfl, by decide⟩

/-- C9 amended: after the print page, the fourteen theme-asset writes are
performed unconditionally, in order, at their fixed paths — `book.js`,
`book.css`, `favicon.png`, `jquery.js`, `highlight.css`,
`tomorrow-night.css`, `highlight.js`, and under `_FontAwesome/` one
stylesheet plus six font files covering five formats (`TTF` is written
both as `fontawesome-webfont.ttf` and `FontAwesome.ttf`). -/
theorem C9_theme_assets_amended (book : MDBook) (env : RenderEnv) (out : RenderOut)
    (h : render book env = .ok out) :
    out.writes.take 14 = (assetWrites env.theme).reverse
    ∧ ((out.writes.drop 14).head?).map Prod.fst = some "print.html" := by
  obtain ⟨st', pr, tpl, _, _, _, _, _, _, _, hw, _⟩ := render_ok_elim book env out h
  have hlen : (assetWrites env.theme).reverse.length = 14 := by simp [assetWrites]
  constructor
  · rw [hw, ← hlen, List.take_left]
  · rw [hw, ← hlen, List.drop_left]
    rfl

/-- Witness for C9 (amended) on the spec's running scenario book. -/
theorem C9_theme_assets_amended_witness :
    outW.writes.take 14 = (assetWrites envW.theme).reverse
    ∧ ((outW.writes.drop 14).head?).map Prod.fst = some "print.html" :=
  C9_theme_assets_amended bkW envW outW (by rfl)

/-- C10: a successful render of a book with no content-bearing node of
non-empty path writes no per-chapter file and no `index.html` — its write
trace is exactly `print.html` followed by the theme assets — and the print
page is rendered from the empty content string. -/
theorem C10_hollow_book (book : MDBook) (env : RenderEnv) (out : RenderOut)
    (hno : book.items.all (fun i => (contentNode? i).isNone) = true)
    (h : render book env = .ok out) :
    out.writes.reverse.map Prod.fst = "print.html" :: assetPaths env.theme
    ∧ lookupCtx "content" (out.calls.headD []) = some (.str "") := by
  obtain ⟨st', pr, tpl, _, _, _, _, hloop, _, _, hw, hc⟩ := render_ok_elim book env out h
  constructor
  · have hpaths := processItems_writes_paths env book book.items (initSt book) st' hloop
    have hzero := loopWritePaths_no_content book.items hno true
    have hWnil : st'.writes = [] := by
      have hW : st'.writes.map Prod.fst = [] := by
        simpa [initSt, hzero] using hpaths
      simpa using hW
    rw [hw, hWnil]
    simp [assetPaths]
  · rw [hc]
    simp only [List.headD_cons]
    rw [printCtxOf_content]
    have hpc := processItems_printContent env book book.items (initSt book) st' hloop
    rw [hpc, contentsOf_no_content env book book.items hno]
    rfl

/-- Witness for C10 on a book with only a spacer and an empty-path
chapter. -/
theorem C10_hollow_book_witness :
    outHollow.writes.reverse.map Prod.fst = "print.html" :: assetPaths envW.theme
    ∧ lookupCtx "content" (outHollow.calls.headD []) = some (.str "") :=
  C10_hollow_book bkHollow envW outHollow (by rfl) (by rfl)

end MdBook

namespace MdBook

/-- C1 counterexample: the engine renders the first page as `"hello\n"`.
The page's own output file holds exactly those bytes and contains no
base-href line, so removing base-href lines with no other change — as the
claim states, preserving the trailing newline — must leave `"hello\n"`;
`index.html` however receives `"hello"`: the `lines()`/`join("\n")`
round-trip drops the trailing newline. -/
theorem C1_trailing_newline_counterexample :
    render bkIntro envNl = .ok outNl
    ∧ outNl.writes.reverse.get? 0 = some ("intro.html", WData.str "hello\n")
    ∧ outNl.writes.reverse.get? 1 = some ("index.html", WData.str "hello")
    ∧ specStripBaseHref "hello\n" = "hello\n"
    ∧ ("hello" : String) ≠ "hello\n" :=
  ⟨rfl, rfl, rfl, rfl, by decide⟩

/-- C1 amended: when the first content-bearing node with non-empty path is
processed (and the re-read does not fault), the oldest two writes are that
node's own page followed by `index.html`, and the bytes of `index.html`
equal the page's bytes split at newlines (a CR before each newline
dropped), the lines containing `<base href=` removed, and the remaining
lines re-joined with single newlines — so a trailing newline of the page
is not preserved. -/
theorem C1_index_derivation_amended (book : MDBook) (env : RenderEnv)
    (out : RenderOut) (ch : Chapter)
    (hfirst : firstContentNode book.items = some ch)
    (hread : env.destReadFail (withExtensionHtml ch.path) = false)
    (h : render book env = .ok out) :
    (out.writes.reverse.map Prod.fst).take 2 = [withExtensionHtml ch.path, "index.html"]
    ∧ (out.writes.reverse.map (fun w => wstr w.2)).get? 1 =
        ((out.writes.reverse.map (fun w => wstr w.2)).get? 0).map stripBaseHrefLines := by
  obtain ⟨st', pr, tpl, _, _, _, _, hloop, _, _, hw, _⟩ := render_ok_elim book env out h
  obtain ⟨r, rest₂, hrev⟩ := processItems_first_index env book book.items
    (initSt book) st' ch hfirst hread rfl rfl hloop
  have hor : out.writes.reverse = (withExtensionHtml ch.path, WData.str r)
      :: ("index.html", WData.str (stripBaseHrefLines r))
      :: (rest₂ ++ ("print.html", WData.str pr) :: assetWrites env.theme) := by
    rw [hw]
    simp [List.reverse_append, hrev]
  rw [hor]
  exact ⟨rfl, rfl⟩

/-- Witness for C1 (amended) on a one-chapter book. -/
theorem C1_index_derivation_amended_witness :
    (outIntro.writes.reverse.map Prod.fst).take 2
        = [withExtensionHtml "intro.md", "index.html"]
    ∧ (outIntro.writes.reverse.map (fun w => wstr w.2)).get? 1 =
        ((outIntro.writes.reverse.map (fun w => wstr w.2)).get? 0).map stripBaseHrefLines :=
  C1_index_derivation_amended bkIntro envW outIntro ⟨"Intro", "intro.md"⟩
    (by rfl) (by rfl) (by rfl)

/-- C3 counterexample: with the index re-read's `read_to_string` failing
(fault oracle `true` on every path), the render still returns success, and
`index.html` is silently derived from the empty buffer instead of the
page's content — the claim that an error at the re-read step aborts the
render with a failure outcome is false. -/
theorem C3_swallowed_reread_counterexample :
    envSwallow.destReadFail (withExtensionHtml "intro.md") = true
    ∧ render bkIntro envSwallow = .ok outSwallow
    ∧ outSwallow.writes.reverse.get? 0
        = some ("intro.html", WData.str "H[<p>raw:s/intro.md</p>]")
    ∧ outSwallow.writes.reverse.get? 1 = some ("index.html", WData.str "") :=
  ⟨rfl, rfl, rfl, rfl⟩

/-- C3 amended: every fallible step aborts the render — template decode,
template registration and destination-directory creation are shown
explicitly, and the remaining steps are fallible only through the `Except`
chain — with one exception: a failure of the `read_to_string` call during
the index re-read (whose result the code discards into `_source`) is
silently swallowed, and render success is entirely independent of that
fault oracle. -/
theorem C3_error_handling_amended (book : MDBook) (env : RenderEnv) (f : String → Bool) :
    (∀ out, render book env = .ok out →
        ∃ out', render book (setDestReadFail env f) = .ok out')
    ∧ (env.theme.index = none → render book env = .error .templateDecode)
    ∧ (∀ s, env.theme.index = some s → env.registerOk = false →
        render book env = .error .templateRegister)
    ∧ (∀ s, env.theme.index = some s → env.registerOk = true → env.createDirOk = false →
        render book env = .error .createDir) := by
  refine ⟨fun out h => render_indep book env f out h, ?_, ?_, ?_⟩
  · intro hnone
    unfold render
    rw [hnone]
  · intro s hsome hreg
    unfold render
    rw [hsome]
    simp [hreg]
  · intro s hsome hreg hdir
    unfold render
    rw [hsome]
    simp [hreg, hdir]

/-- Witness for C3 (amended): the one-chapter render succeeds even when
every index re-read fails. -/
theorem C3_error_handling_amended_witness :
    (render bkIntro (setDestReadFail envW (fun _ => true))).isOk = true := by
  obtain ⟨out', ho⟩ :=
    (C3_error_handling_amended bkIntro envW (fun _ => true)).1 outIntro (by rfl)
  rw [ho]
  rfl

end MdBook

namespace MdBook

/-- When no node's own output path is `index.html`, the loop writes
`index.html` exactly once if the pending flag is set and a content node
exists, and never otherwise. -/
theorem loopWritePaths_count_index :
    ∀ (items : List BookItem), noIndexClash items = true →
      ∀ pending, (loopWritePaths items pending).count "index.html" =
        if pending && items.any (fun i => (contentNode? i).isSome) then 1 else 0 := by
  intro items
  induction items with
  | nil => intro _ pending; simp [loopWritePaths]
  | cons i rest ih =>
    intro hno pending
    simp only [noIndexClash, List.all_cons, Bool.and_eq_true] at hno
    obtain ⟨h1, h2⟩ := hno
    have h2' : noIndexClash rest = true := h2
    cases hcn : contentNode? i with
    | none =>
      simp [loopWritePaths, hcn, ih h2', List.any_cons]
    | some ch =>
      rw [hcn] at h1
      have hne : withExtensionHtml ch.path ≠ "index.html" := by simpa using h1
      have hne2 : ¬ ("index.html" = withExtensionHtml ch.path) := fun hh => hne hh.symm
      cases pending with
      | true =>
        simp [loopWritePaths, hcn, List.count_cons, hne, hne2, ih h2', List.any_cons]
      | false =>
        simp [loopWritePaths, hcn, List.count_cons, hne, hne2, ih h2', List.any_cons]

/-- C8 counterexample: a book whose only chapter has source path
`index.md` makes the render write the path `index.html` twice — once as
the chapter's own output file and once as the derived index — refuting
"index.html is written at most once". -/
theorem C8_index_twice_counterexample :
    render bkIndexMd envW = .ok outIndexMd
    ∧ withExtensionHtml "index.md" = "index.html"
    ∧ (outIndexMd.writes.map Prod.fst).count "index.html" = 2 :=
  ⟨rfl, rfl, rfl⟩

/-- C8 amended: provided no node's own output path is itself `index.html`,
the render writes `index.html` exactly once when some content-bearing node
with non-empty path exists and never otherwise; and the derived index is
written immediately after the first content node's own file (a faithful
re-read assumed), so no later node triggers index derivation. -/
theorem C8_index_written_once_amended (book : MDBook) (env : RenderEnv)
    (out : RenderOut)
    (hno : noIndexClash book.items = true)
    (h : render book env = .ok out) :
    (out.writes.map Prod.fst).count "index.html" =
      (if book.items.any (fun i => (contentNode? i).isSome) then 1 else 0)
    ∧ (∀ ch, firstContentNode book.items = some ch →
        env.destReadFail (withExtensionHtml ch.path) = false →
        (out.writes.reverse.map Prod.fst).take 2
          = [withExtensionHtml ch.path, "index.html"]) := by
  obtain ⟨st', pr, tpl, _, _, _, _, hloop, _, _, hw, _⟩ := render_ok_elim book env out h
  constructor
  · have hW : st'.writes.map Prod.fst = (loopWritePaths book.items true).reverse := by
      simpa [initSt] using
        processItems_writes_paths env book book.items (initSt book) st' hloop
    have hAmap : (assetWrites env.theme).map Prod.fst
        = ["book.js", "book.css", "favicon.png", "jquery.js", "highlight.css",
           "tomorrow-night.css", "highlight.js", "_FontAwesome/css/font-awesome.css",
           "_FontAwesome/fonts/fontawesome-webfont.eot",
           "_FontAwesome/fonts/fontawesome-webfont.svg",
           "_FontAwesome/fonts/fontawesome-webfont.ttf",
           "_FontAwesome/fonts/fontawesome-webfont.woff",
           "_FontAwesome/fonts/fontawesome-webfont.woff2",
           "_FontAwesome/fonts/FontAwesome.ttf"] := rfl
    have hAcount : ((assetWrites env.theme).reverse.map Prod.fst).count "index.html" = 0 := by
      rw [List.map_reverse, hAmap]
      decide
    have hAcount2 : ((assetWrites env.theme).map Prod.fst).count "index.html" = 0 := by
      rw [hAmap]
      decide
    have hprint : (("print.html" : String) == "index.html") = false := by decide
    rw [hw]
    simp [List.map_append, List.count_append, hAcount, hAcount2, hW, List.count_reverse,
      loopWritePaths_count_index book.items hno true, List.count_cons, hprint]
  · intro ch hfirst hread
    obtain ⟨r, rest₂, hrev⟩ := processItems_first_index env book book.items
      (initSt book) st' ch hfirst hread rfl rfl hloop
    have hor : out.writes.reverse = (withExtensionHtml ch.path, WData.str r)
        :: ("index.html", WData.str (stripBaseHrefLines r))
        :: (rest₂ ++ ("print.html", WData.str pr) :: assetWrites env.theme) := by
      rw [hw]
      simp [List.reverse_append, hrev]
    rw [hor]
    rfl

/-- Witness for C8 (amended) on the spec's running scenario book. -/
theorem C8_index_written_once_amended_witness :
    ((outW.writes.map Prod.fst).count "index.html" =
      (if bkW.items.any (fun i => (contentNode? i).isSome) then 1 else 0))
    ∧ (outW.writes.reverse.map Prod.fst).take 2
        = [withExtensionHtml "intro.md", "index.html"] := by
  have h := C8_index_written_once_amended bkW envW outW (by rfl) (by rfl)
  exact ⟨h.1, h.2 ⟨"Intro", "intro.md"⟩ (by rfl) (by rfl)⟩

end MdBook
